import Mathlib

/- Shallow embedding of the screenplay document store of this repository
(the frontend state store in App.tsx: typed script lines, the heuristic
line classifier inside replaceLines, and the range-replacement / undo
engine over the ordered line sequence).

JavaScript strings are modelled as Lean String values, and the JavaScript
string operations the store uses (trim, toUpperCase, toLowerCase,
split("\n"), startsWith, endsWith, includes, length, join("\n")) are
implemented over the character list String.data with their ASCII
semantics, which is the fragment the store's regexes and comparisons
exercise. -/

/-- The whitespace class of JavaScript: the characters removed by trim and
matched by the regex class \s, restricted to its ASCII members (space,
tab, newline, carriage return, vertical tab, form feed). -/
def jsWhitespace (c : Char) : Bool :=
  c = ' ' || c = '\t' || c = '\n' || c = '\r' || c = Char.ofNat 11 || c = Char.ofNat 12

/-- JavaScript String.prototype.trim: drop leading and trailing whitespace. -/
def jsTrim (s : String) : String :=
  String.mk (((s.data.dropWhile jsWhitespace).reverse.dropWhile jsWhitespace).reverse)

/-- JavaScript String.prototype.toUpperCase on the ASCII fragment. -/
def jsToUpper (s : String) : String := String.mk (s.data.map Char.toUpper)

/-- JavaScript String.prototype.toLowerCase on the ASCII fragment. -/
def jsToLower (s : String) : String := String.mk (s.data.map Char.toLower)

/-- JavaScript String.prototype.split("\n") over the character list: the
segments between newline characters, in order; the empty string yields one
empty segment, and adjacent newlines yield empty segments. -/
def splitNLAux : List Char → List (List Char)
  | [] => [[]]
  | c :: rest =>
    if c = '\n' then [] :: splitNLAux rest
    else match splitNLAux rest with
      | [] => [[c]]
      | g :: gs => (c :: g) :: gs

/-- JavaScript newContent.split("\n") as a list of strings. -/
def jsSplitNewlines (s : String) : List String := (splitNLAux s.data).map String.mk

/-- JavaScript String.prototype.startsWith. -/
def strStartsWith (s p : String) : Bool := s.data.take p.data.length == p.data

/-- JavaScript String.prototype.endsWith. -/
def strEndsWith (s p : String) : Bool := s.data.drop (s.data.length - p.data.length) == p.data

/-- JavaScript String.prototype.includes for a single character. -/
def strContains (s : String) (c : Char) : Bool := s.data.contains c

/-- JavaScript String.prototype.length (code units; equal to the number of
characters on the ASCII fragment). -/
def strLength (s : String) : Nat := s.data.length

/-- The five values of the type field of a script line. -/
inductive LineType
  | dialogue
  | action
  | heading
  | character
  | parenthetical
deriving DecidableEq

/-- A typed script line: ScriptLine in the store. -/
structure ScriptLine where
  type : LineType
  content : String
  original_text : String
deriving DecidableEq

/-- A scene back-reference into the line sequence: Scene in the store. -/
structure Scene where
  name : String
  lineIndex : Nat
deriving DecidableEq

/-- The detected file format; the JavaScript null case is Option.none. -/
inductive FileFormat
  | pdf
  | fdx
deriving DecidableEq

/-- The active selection record of the store. -/
structure Selection where
  text : String
  startIndex : Nat
  endIndex : Nat
deriving DecidableEq

/-- An edit-history entry: EditHistoryEntry in the store. The source also
carries a timestamp field holding an opaque JavaScript Date, omitted here;
the entry id (wall clock plus random suffix in the source) is supplied by
the caller of the model's replaceLines. -/
structure EditHistoryEntry where
  id : String
  startIndex : Nat
  endIndex : Nat
  originalLines : List ScriptLine
  newLines : List ScriptLine
  originalText : String
  newText : String
  prompt : String
deriving DecidableEq

/-- The whole store state: ScriptState in the source. -/
structure ScriptState where
  lines : List ScriptLine
  characters : List String
  scenes : List Scene
  fileFormat : Option FileFormat
  selection : Option Selection
  editHistory : List EditHistoryEntry
  isLoading : Bool
  error : Option String
deriving DecidableEq

/-- The scene-heading regex of replaceLines: the trimmed text starts,
case-insensitively, with one of these alternatives. -/
def sceneHeadingAlternatives : List String :=
  ["INT.", "EXT.", "INT/EXT.", "I/E.", "INT./EXT.", "EXT./INT."]

/-- Test of the case-insensitive scene-heading regex. -/
def sceneHeadingTest (s : String) : Bool :=
  sceneHeadingAlternatives.any (fun p => strStartsWith (jsToLower s) (jsToLower p))

/-- The keyword alternatives of the action-indicator regex. -/
def actionKeywordAlternatives : List String :=
  ["REVEAL", "CUT TO", "ON:", "DISSOLVE TO", "FADE", "PAN TO"]

/-- The third-person action verbs of the action-indicator regex. -/
def actionVerbs : List String :=
  ["says", "turns", "moves", "walks", "looks", "stares", "enters", "exits"]

/-- The regex character class of word-or-space characters: ASCII letters,
digits, underscore, or whitespace. -/
def wordOrSpace (c : Char) : Bool := c.isAlphanum || c = '_' || jsWhitespace c

/-- Existence of a match of the subject-plus-verb alternative of the
action-indicator regex at the start of the lower-cased character list:
some prefix of length at least two consists of word-or-space characters
and ends in a whitespace character, and is followed by one of the verbs
and then one whitespace character. -/
def subjectVerbTest (l : List Char) : Bool :=
  (List.range (l.length + 1)).any (fun j =>
    decide (2 ≤ j) && (l.take j).all wordOrSpace &&
    (match (l.take j).getLast? with
     | some c => jsWhitespace c
     | none => false) &&
    actionVerbs.any (fun v =>
      ((l.drop j).take v.data.length == v.data) &&
      (match (l.drop (j + v.data.length)).head? with
       | some c => jsWhitespace c
       | none => false)))

/-- Test of the case-insensitive action-indicator regex: one of the
transition keywords at the start, or the subject-plus-verb pattern. -/
def actionIndicatorTest (s : String) : Bool :=
  actionKeywordAlternatives.any (fun k => strStartsWith (jsToLower s) (jsToLower k))
    || subjectVerbTest (jsToLower s).data

/-- The classifier detectType of replaceLines: assigns a line type to one
segment of the replacement text given the rolling previous type. -/
def detectType (content : String) (prevType : Option LineType) : LineType :=
  let trimmed := jsTrim content
  if sceneHeadingTest trimmed && (trimmed == jsToUpper trimmed) then LineType.heading
  else if strStartsWith trimmed ("(") && strEndsWith trimmed (")") then LineType.parenthetical
  else if (trimmed == jsToUpper trimmed) && decide (strLength trimmed ≤ 45)
      && !(strContains trimmed '.') then LineType.character
  else if prevType == some LineType.character || prevType == some LineType.parenthetical then
    LineType.dialogue
  else if prevType == some LineType.dialogue then
    if actionIndicatorTest trimmed then LineType.action else LineType.dialogue
  else LineType.action

/-- The contentLines local of replaceLines: the replacement text split on
newlines, keeping only segments that are non-empty after trimming. -/
def contentLines (newContent : String) : List String :=
  (jsSplitNewlines newContent).filter (fun l => !(jsTrim l == ""))

/-- The classification loop of replaceLines: the rolling previous type
threads left to right through the segments (the mutable prevType of the
source's map callback). -/
def classifySegments (prevType : Option LineType) : List String → List ScriptLine
  | [] => []
  | content :: rest =>
    let t := detectType content prevType
    { type := t, content := jsTrim content, original_text := content }
      :: classifySegments (some t) rest

/-- The newLineObjects local of replaceLines: the classifier run over the
segments starting with no previous type. -/
def newLineObjects (newContent : String) : List ScriptLine :=
  classifySegments none (contentLines newContent)

/-- The store action setScript: the zustand set merges the given partial
record, so fields not listed in the source (selection, isLoading) keep
their previous values. -/
def setScript (lines : List ScriptLine) (characters : List String) (scenes : List Scene)
    (fileFormat : Option FileFormat) (s : ScriptState) : ScriptState :=
  { s with lines := lines, characters := characters, scenes := scenes,
           fileFormat := fileFormat, editHistory := [], error := none }

/-- The store action clearScript. -/
def clearScript (s : ScriptState) : ScriptState :=
  { s with lines := [], characters := [], scenes := [], fileFormat := none,
           selection := none, editHistory := [], error := none }

/-- The store action setSelection. -/
def setSelection (text : String) (startIndex endIndex : Nat) (s : ScriptState) : ScriptState :=
  { s with selection := some { text := text, startIndex := startIndex, endIndex := endIndex } }

/-- The store action clearSelection. -/
def clearSelection (s : ScriptState) : ScriptState :=
  { s with selection := none }

/-- The store action updateLine: copies the line array and overwrites the
content field of the entry at the index. An out-of-range JavaScript index
assignment would extend the array with an object missing the other fields,
which the typed model cannot represent; the model leaves the list
unchanged there, and every theorem about updateLine assumes an in-range
index. -/
def updateLine (index : Nat) (newContent : String) (s : ScriptState) : ScriptState :=
  { s with lines :=
      match s.lines[index]? with
      | some l => s.lines.set index { l with content := newContent }
      | none => s.lines }

/-- The editEntry record that replaceLines constructs: originalLines and
originalText snapshot the replaced slice, newLines holds the classifier
output; array slice is List.take and List.drop with the same clamping
behaviour. -/
def mkEditEntry (id : String) (startIndex endIndex : Nat) (newContent prompt : String)
    (s : ScriptState) : EditHistoryEntry :=
  { id := id, startIndex := startIndex, endIndex := endIndex,
    originalLines := (s.lines.drop startIndex).take (endIndex + 1 - startIndex),
    newLines := newLineObjects newContent,
    originalText := String.intercalate ("\n")
      (((s.lines.drop startIndex).take (endIndex + 1 - startIndex)).map (fun l => l.content)),
    newText := newContent, prompt := prompt }

/-- The store action replaceLines. The nondeterministic entry id is an
explicit parameter here and the prompt parameter's JavaScript default is
the string "Manual edit"; the source performs no bounds check on the
indices, and the new history is the entry prepended and truncated to the
50 most recent. -/
def replaceLines (id : String) (startIndex endIndex : Nat) (newContent prompt : String)
    (s : ScriptState) : ScriptState :=
  { s with
    lines := s.lines.take startIndex ++ newLineObjects newContent
      ++ s.lines.drop (endIndex + 1),
    editHistory := (mkEditEntry id startIndex endIndex newContent prompt s
      :: s.editHistory).take 50 }

/-- The store action undoEdit. The source looks up the first matching
index with findIndex and reads the entry at that index, which is
List.find?; the splice uses the entry's recorded startIndex and the length
of its recorded newLines, and the filter removes the entry. -/
def undoEdit (editId : String) (s : ScriptState) : ScriptState :=
  match s.editHistory.find? (fun e => e.id == editId) with
  | none => s
  | some edit =>
    { s with
      lines := s.lines.take edit.startIndex ++ edit.originalLines
        ++ s.lines.drop (edit.startIndex + edit.newLines.length),
      editHistory := s.editHistory.filter (fun e => !(e.id == editId)) }

/-- The store action clearHistory. -/
def clearHistory (s : ScriptState) : ScriptState :=
  { s with editHistory := [] }

/-- The store action setLoading. -/
def setLoading (isLoading : Bool) (s : ScriptState) : ScriptState :=
  { s with isLoading := isLoading }

/-- The store action setError. -/
def setError (error : Option String) (s : ScriptState) : ScriptState :=
  { s with error := error }

/-- The initial store state from the create call. -/
def initialState : ScriptState :=
  { lines := [], characters := [], scenes := [], fileFormat := none,
    selection := none, editHistory := [], isLoading := false, error := none }

/-- One replaceLines call's parameters, for iterating sequences of edits. -/
structure ReplaceCall where
  id : String
  startIndex : Nat
  endIndex : Nat
  newContent : String
  prompt : String
deriving DecidableEq

/-- Sequential application of a list of replaceLines calls. -/
def applyReplaces (s : ScriptState) (calls : List ReplaceCall) : ScriptState :=
  calls.foldl (fun st c => replaceLines c.id c.startIndex c.endIndex c.newContent c.prompt st) s

/-- An apostrophe as a one-character string, used to build concrete inputs. -/
def apos : String := String.mk [Char.ofNat 39]

/-- A concrete action line. -/
def lineA : ScriptLine := { type := LineType.action, content := "a", original_text := "a" }

/-- A concrete dialogue line. -/
def lineB : ScriptLine := { type := LineType.dialogue, content := "b", original_text := "b" }

/-- A concrete one-line document. -/
def s0 : ScriptState := { initialState with lines := [lineA] }

/-- A concrete history entry for exercising undoEdit. -/
def entry0 : EditHistoryEntry :=
  { id := "e0", startIndex := 0, endIndex := 0, originalLines := [lineA],
    newLines := [lineB], originalText := "a", newText := "b", prompt := "p" }

/-- A concrete state whose history holds entry0. -/
def sHist : ScriptState := { initialState with lines := [lineB], editHistory := [entry0] }

/-- A concrete state with an active selection. -/
def sSel : ScriptState :=
  { initialState with
      lines := [lineA],
      selection := some { text := "t", startIndex := 1, endIndex := 2 } }

/-- A concrete four-line document whose line at index 2 is a dialogue line. -/
def s8 : ScriptState :=
  { initialState with lines :=
      [ { type := LineType.action, content := "one", original_text := "one" },
        { type := LineType.character, content := "BOB", original_text := "BOB" },
        { type := LineType.dialogue, content := "hi", original_text := "hi" },
        { type := LineType.action, content := "four", original_text := "four" } ] }

/-- The replacement text of the replace-and-undo example. -/
def txt8 : String := ("Fine. Let") ++ apos ++ ("s go.\nCUT TO:\nEXT. STREET - NIGHT")

/-- Sixty replaceLines calls with distinct ids and empty replacement text. -/
def calls60 : List ReplaceCall :=
  (List.range 60).map (fun i =>
    { id := toString i, startIndex := 0, endIndex := 0, newContent := "", prompt := "" })

/-- The single line classified from the text "hello". -/
def lW : ScriptLine := { type := LineType.action, content := "hello", original_text := "hello" }

/-- Auxiliary: the classifier produces exactly one line per kept segment. -/
theorem classifySegments_length (prevType : Option LineType) (l : List String) :
    (classifySegments prevType l).length = l.length := by
  induction l generalizing prevType with
  | nil => rfl
  | cons a as ih => simp [classifySegments, ih]

/-- Auxiliary: lines produced by undoEdit when the history head matches
the requested id. -/
theorem undoEdit_head (s : ScriptState) (e : EditHistoryEntry) (rest : List EditHistoryEntry)
    (hhist : s.editHistory = e :: rest) :
    (undoEdit e.id s).lines
      = s.lines.take e.startIndex ++ e.originalLines
        ++ s.lines.drop (e.startIndex + e.newLines.length) := by
  unfold undoEdit
  rw [hhist, List.find?_cons_of_pos _ (by simp)]

/-- Auxiliary: undoing immediately after a replacement on a valid range
restores the exact previous line list. -/
theorem undo_after_replace (s : ScriptState) (id txt p : String) (st en : Nat)
    (h1 : st ≤ en) (h2 : en < s.lines.length) :
    (undoEdit id (replaceLines id st en txt p s)).lines = s.lines := by
  have hst : st ≤ s.lines.length := Nat.le_trans h1 (Nat.le_of_lt h2)
  have hA : (s.lines.take st).length = st := by rw [List.length_take]; omega
  have h := undoEdit_head (replaceLines id st en txt p s)
    (mkEditEntry id st en txt p s) (s.editHistory.take 49) rfl
  simp only [mkEditEntry] at h
  rw [h]
  show ((s.lines.take st ++ newLineObjects txt ++ s.lines.drop (en + 1)).take st
      ++ (s.lines.drop st).take (en + 1 - st))
      ++ (s.lines.take st ++ newLineObjects txt ++ s.lines.drop (en + 1)).drop
          (st + (newLineObjects txt).length) = s.lines
  have g1 : (s.lines.take st ++ newLineObjects txt ++ s.lines.drop (en + 1)).take st
      = s.lines.take st := by
    rw [List.append_assoc]
    exact List.take_left' hA
  have g2 : (s.lines.take st ++ newLineObjects txt ++ s.lines.drop (en + 1)).drop
      (st + (newLineObjects txt).length) = s.lines.drop (en + 1) :=
    List.drop_left' (by rw [List.length_append, hA])
  have g3 : s.lines.take st ++ (s.lines.drop st).take (en + 1 - st)
      = s.lines.take (en + 1) := by
    have hO : (s.lines.drop st).take (en + 1 - st) = (s.lines.take (en + 1)).drop st :=
      (List.drop_take (en + 1) st s.lines).symm
    have hA2 : s.lines.take st = (s.lines.take (en + 1)).take st := by
      rw [List.take_take]
      congr 1
      omega
    rw [hO, hA2, List.take_append_drop]
  rw [g1, g2, g3, List.take_append_drop]

/-- Auxiliary: truncating an append whose right part is already truncated
to the same bound gives the truncation of the whole append. -/
theorem take_append_take {α : Type} (A B : List α) (n : Nat) :
    (A ++ B.take n).take n = (A ++ B).take n := by
  rw [List.take_append_eq_append_take, List.take_append_eq_append_take, List.take_take]
  have h : min (n - A.length) n = n - A.length := by omega
  rw [h]

/-- Auxiliary: the history after a replaceLines call carries the new id at
the front of the truncated previous id sequence. -/
theorem replaceLines_history_ids (s : ScriptState) (id : String) (st en : Nat) (txt p : String) :
    (replaceLines id st en txt p s).editHistory.map (fun e => e.id)
      = (id :: s.editHistory.map (fun e => e.id)).take 50 := by
  show ((mkEditEntry id st en txt p s :: s.editHistory).take 50).map (fun e => e.id) = _
  rw [List.map_take]
  simp [mkEditEntry]

/-- Auxiliary: the most-recent-first id sequence of the history after a
run of replaceLines calls. -/
theorem applyReplaces_history_ids (calls : List ReplaceCall) (s : ScriptState)
    (h : s.editHistory.length ≤ 50) :
    (applyReplaces s calls).editHistory.map (fun e => e.id)
      = ((calls.reverse.map (fun c => c.id)) ++ s.editHistory.map (fun e => e.id)).take 50 := by
  induction calls generalizing s with
  | nil =>
    simp only [applyReplaces, List.foldl_nil, List.reverse_nil, List.map_nil, List.nil_append]
    rw [List.take_of_length_le (by simpa using h)]
  | cons c cs ih =>
    have hstep : applyReplaces s (c :: cs)
        = applyReplaces (replaceLines c.id c.startIndex c.endIndex c.newContent c.prompt s) cs :=
      rfl
    have hb : (replaceLines c.id c.startIndex c.endIndex c.newContent c.prompt s
        ).editHistory.length ≤ 50 := List.length_take_le _ _
    rw [hstep, ih _ hb, replaceLines_history_ids, take_append_take]
    simp [List.reverse_cons, List.append_assoc]

/-- Auxiliary: the classifier never assigns dialogue when there is no
previous type: both dialogue rules require a previous type. -/
theorem detectType_none_ne_dialogue (c : String) : detectType c none ≠ LineType.dialogue := by
  unfold detectType
  repeat' split
  all_goals simp_all
  all_goals repeat' split
  all_goals simp

/-- Auxiliary: the first classified line's type comes from running the
classifier on the first kept segment with no previous type. -/
theorem newLineObjects_head_type (txt : String) (l : ScriptLine)
    (hl : (newLineObjects txt).head? = some l) :
    ∃ c, l.type = detectType c none := by
  unfold newLineObjects at hl
  cases hc : contentLines txt with
  | nil => rw [hc] at hl; simp [classifySegments] at hl
  | cons c rest =>
    rw [hc] at hl
    simp only [classifySegments, List.head?_cons, Option.some.injEq] at hl
    exact ⟨c, by rw [← hl]⟩

/-- Claim C1: for every document state and every valid range with
startIndex at most endIndex, endIndex below the line count, undoing with
the id of the entry created by an immediately preceding replaceLines call,
with no intervening mutation, restores the line sequence exactly, hence
in particular line-by-line by content. -/
theorem C1_replace_undo_roundtrip (s : ScriptState) (id txt p : String) (st en : Nat)
    (h1 : st ≤ en) (h2 : en < s.lines.length) :
    (undoEdit id (replaceLines id st en txt p s)).lines = s.lines
    ∧ ((undoEdit id (replaceLines id st en txt p s)).lines).map (fun l => l.content)
        = s.lines.map (fun l => l.content) := by
  have h := undo_after_replace s id txt p st en h1 h2
  exact ⟨h, by rw [h]⟩

/-- Witness for C1 at a concrete one-line document. -/
theorem C1_witness :
    (undoEdit ("w1") (replaceLines ("w1") 0 0 ("x") ("p") s0)).lines = s0.lines :=
  (C1_replace_undo_roundtrip s0 ("w1") ("x") ("p") 0 0 (Nat.le_refl 0) (by decide)).1

/-- Claim C2: undoEdit with an id absent from history leaves the whole
state unchanged; with the found entry it splices using the entry's
recorded startIndex and the length of its recorded newLines and removes
the entry from history; and in every case no entry with the given id
remains in the history afterwards. -/
theorem C2_undoEdit_postcondition (s : ScriptState) (editId : String) :
    ((∀ e ∈ s.editHistory, e.id ≠ editId) → undoEdit editId s = s)
    ∧ (∀ entry, s.editHistory.find? (fun e => e.id == editId) = some entry →
        (undoEdit editId s).lines
          = s.lines.take entry.startIndex ++ entry.originalLines
            ++ s.lines.drop (entry.startIndex + entry.newLines.length)
        ∧ (undoEdit editId s).editHistory
            = s.editHistory.filter (fun e => !(e.id == editId)))
    ∧ (∀ e ∈ (undoEdit editId s).editHistory, e.id ≠ editId) := by
  refine ⟨?_, ?_, ?_⟩
  · intro h
    have hfind : s.editHistory.find? (fun e => e.id == editId) = none :=
      List.find?_eq_none.mpr (by intro e he; simpa using h e he)
    simp [undoEdit, hfind]
  · intro entry hfind
    constructor
    · simp [undoEdit, hfind]
    · simp [undoEdit, hfind]
  · cases hfind : s.editHistory.find? (fun e => e.id == editId) with
    | none =>
      intro e he
      have he2 : e ∈ s.editHistory := by simpa [undoEdit, hfind] using he
      simpa using List.find?_eq_none.mp hfind e he2
    | some entry =>
      intro e he
      have he2 : e ∈ s.editHistory.filter (fun e => !(e.id == editId)) := by
        simpa [undoEdit, hfind] using he
      simpa using (List.mem_filter.mp he2).2

/-- Witness for C2 at a concrete state with one matching history entry
and at a concrete state with no matching entry. -/
theorem C2_witness :
    ((undoEdit ("e0") sHist).lines
        = sHist.lines.take entry0.startIndex ++ entry0.originalLines
          ++ sHist.lines.drop (entry0.startIndex + entry0.newLines.length)
      ∧ (undoEdit ("e0") sHist).editHistory
          = sHist.editHistory.filter (fun e => !(e.id == ("e0"))))
    ∧ undoEdit ("zz") initialState = initialState := by
  refine ⟨(C2_undoEdit_postcondition sHist ("e0")).2.1 entry0 (by decide), ?_⟩
  exact (C2_undoEdit_postcondition initialState ("zz")).1 (by intro e he; cases he)

/-- Claim C3: for every valid range, replaceLines changes the line count
by exactly the number of classified segments minus the replaced span
length, where the classified segments are the newline-separated pieces of
the text that are non-empty after trimming. -/
theorem C3_line_count_change (s : ScriptState) (id txt p : String) (st en : Nat)
    (h1 : st ≤ en) (h2 : en < s.lines.length) :
    (replaceLines id st en txt p s).lines.length + (en - st + 1)
      = s.lines.length + (newLineObjects txt).length
    ∧ (newLineObjects txt).length = (contentLines txt).length := by
  constructor
  · simp only [replaceLines, List.length_append, List.length_take, List.length_drop]
    omega
  · exact classifySegments_length none (contentLines txt)

/-- Witness for C3 at a concrete one-line document and two-segment text. -/
theorem C3_witness :
    (replaceLines ("w3") 0 0 ("x\ny") ("p") s0).lines.length + (0 - 0 + 1)
      = s0.lines.length + (newLineObjects ("x\ny")).length
    ∧ (newLineObjects ("x\ny")).length = (contentLines ("x\ny")).length :=
  C3_line_count_change s0 ("w3") ("x\ny") ("p") 0 0 (Nat.le_refl 0) (by decide)

/-- Claim C4: the bound editHistory.length at most 50 is preserved by
every store operation; and sixty sequential replaceLines calls on a fresh
document leave exactly 50 entries, namely the ids of the 50 most recent
calls in most-recent-first order. -/
theorem C4_history_bounded :
    (∀ s : ScriptState, s.editHistory.length ≤ 50 →
      (∀ id st en txt p, (replaceLines id st en txt p s).editHistory.length ≤ 50)
      ∧ (∀ eid, (undoEdit eid s).editHistory.length ≤ 50)
      ∧ (∀ ls chs scs fmt, (setScript ls chs scs fmt s).editHistory.length ≤ 50)
      ∧ (clearScript s).editHistory.length ≤ 50
      ∧ (∀ t a b, (setSelection t a b s).editHistory.length ≤ 50)
      ∧ (clearSelection s).editHistory.length ≤ 50
      ∧ (∀ i c, (updateLine i c s).editHistory.length ≤ 50)
      ∧ (clearHistory s).editHistory.length ≤ 50
      ∧ (∀ b, (setLoading b s).editHistory.length ≤ 50)
      ∧ (∀ e, (setError e s).editHistory.length ≤ 50))
    ∧ (∀ (s : ScriptState) (calls : List ReplaceCall),
        s.editHistory = [] → calls.length = 60 →
        (applyReplaces s calls).editHistory.length = 50
        ∧ (applyReplaces s calls).editHistory.map (fun e => e.id)
            = ((calls.reverse).map (fun c => c.id)).take 50) := by
  constructor
  · intro s h
    refine ⟨?_, ?_, ?_, ?_, ?_, ?_, ?_, ?_, ?_, ?_⟩
    · intro id st en txt p
      exact List.length_take_le _ _
    · intro eid
      cases hf : s.editHistory.find? (fun e => e.id == eid) with
      | none => simpa [undoEdit, hf] using h
      | some entry =>
        have : (undoEdit eid s).editHistory
            = s.editHistory.filter (fun e => !(e.id == eid)) := by simp [undoEdit, hf]
        rw [this]
        exact Nat.le_trans (List.length_filter_le _ _) h
    · intro ls chs scs fmt; simp [setScript]
    · simp [clearScript]
    · intro t a b; simpa [setSelection] using h
    · simpa [clearSelection] using h
    · intro i c; simpa [updateLine] using h
    · simp [clearHistory]
    · intro b; simpa [setLoading] using h
    · intro e; simpa [setError] using h
  · intro s calls h0 h60
    have hids := applyReplaces_history_ids calls s (by rw [h0]; simp)
    rw [h0] at hids
    simp only [List.map_nil, List.append_nil] at hids
    refine ⟨?_, hids⟩
    have hlen := congrArg List.length hids
    simpa [List.length_map, List.length_take, List.length_reverse, h60] using hlen

/-- Witness for C4: the sixty concrete calls of calls60 on the fresh
initial state, and one bounded-preservation instance. -/
theorem C4_witness :
    (applyReplaces initialState calls60).editHistory.length = 50
    ∧ (applyReplaces initialState calls60).editHistory.map (fun e => e.id)
        = ((calls60.reverse).map (fun c => c.id)).take 50
    ∧ (undoEdit ("z") initialState).editHistory.length ≤ 50 := by
  refine ⟨(C4_history_bounded.2 initialState calls60 rfl (by decide)).1,
          (C4_history_bounded.2 initialState calls60 rfl (by decide)).2,
          (C4_history_bounded.1 initialState (by decide)).2.1 ("z")⟩

/-- Counterexample for C5: a call whose indices violate the precondition
(endIndex 7 is not below the line count 1) still changes both the line
sequence and the edit history, because the source performs no bounds
check. -/
theorem C5_counterexample :
    (5 ≤ 7 ∧ ¬ (7 < s0.lines.length))
    ∧ (replaceLines ("e5") 5 7 ("Hello") ("p") s0).lines ≠ s0.lines
    ∧ (replaceLines ("e5") 5 7 ("Hello") ("p") s0).editHistory ≠ s0.editHistory := by
  decide

/-- Claim C5 amended: replaceLines performs no precondition check; for
every call, valid or not, the clamped splice and the history push both
happen, so on a precondition violation the state generally changes. -/
theorem C5_replace_always_applies (s : ScriptState) (id : String) (st en : Nat) (txt p : String) :
    (replaceLines id st en txt p s).lines
      = s.lines.take st ++ newLineObjects txt ++ s.lines.drop (en + 1)
    ∧ (replaceLines id st en txt p s).editHistory.map (fun e => e.id)
        = (id :: s.editHistory.map (fun e => e.id)).take 50
    ∧ (replaceLines id st en txt p s).editHistory.length
        = min (s.editHistory.length + 1) 50 := by
  refine ⟨rfl, replaceLines_history_ids s id st en txt p, ?_⟩
  show ((mkEditEntry id st en txt p s :: s.editHistory).take 50).length = _
  rw [List.length_take]
  simp [Nat.min_comm]

/-- Counterexample for C6: setScript does not reset the selection; on a
state with an active selection the selection survives the call unchanged,
while the claim requires it to become none. -/
theorem C6_counterexample :
    (setScript [] [] [] none sSel).selection ≠ none
    ∧ (setScript [] [] [] none sSel).selection = sSel.selection := by
  decide

/-- Claim C6 amended: setScript stores the given lines, characters,
scenes and format, empties the history and clears the error, but leaves
the selection (and the loading flag) unchanged rather than resetting it. -/
theorem C6_setScript_behavior (s : ScriptState) (ls : List ScriptLine) (chs : List String)
    (scs : List Scene) (fmt : Option FileFormat) :
    (setScript ls chs scs fmt s).lines = ls
    ∧ (setScript ls chs scs fmt s).characters = chs
    ∧ (setScript ls chs scs fmt s).scenes = scs
    ∧ (setScript ls chs scs fmt s).fileFormat = fmt
    ∧ (setScript ls chs scs fmt s).editHistory = []
    ∧ (setScript ls chs scs fmt s).error = none
    ∧ (setScript ls chs scs fmt s).selection = s.selection
    ∧ (setScript ls chs scs fmt s).isLoading = s.isLoading :=
  ⟨rfl, rfl, rfl, rfl, rfl, rfl, rfl, rfl⟩

/-- Claim C7: the classifier on the four-segment example input produces
exactly four lines typed heading, character, parenthetical, dialogue in
that order. -/
theorem C7_classifier_example :
    (newLineObjects ("INT. KITCHEN - DAY\nJOHN\n(whispering)\nWe need to leave now.")).map
        (fun l => l.type)
      = [LineType.heading, LineType.character, LineType.parenthetical, LineType.dialogue]
    ∧ (newLineObjects ("INT. KITCHEN - DAY\nJOHN\n(whispering)\nWe need to leave now.")).length
      = 4 := by
  decide

/-- Counterexample for C8: on the concrete document s8 whose line 2 is
dialogue, replacing range [2,2] with the example text yields a first new
line of type action, not dialogue as the claim states, because the
classifier's previous-type state starts as none. -/
theorem C8_counterexample :
    ((s8.lines[2]?).map (fun l => l.type) = some LineType.dialogue)
    ∧ (((replaceLines ("e8") 2 2 txt8 ("p") s8).lines[2]?).map (fun l => l.type)
        = some LineType.action)
    ∧ LineType.action ≠ LineType.dialogue := by
  decide

/-- Claim C8 amended: replacing a single dialogue line at index 2 with
the example text yields three new lines typed action, character, heading
in that order (the first segment gets no previous type, and the segment
CUT TO: is all upper case, short and period-free, hence a character cue),
and undoing that entry restores the original lines, in particular the
dialogue line at index 2. -/
theorem C8_amended_replace_undo (s : ScriptState) (id p : String)
    (h2 : 2 < s.lines.length)
    (_hd : ∀ l, s.lines[2]? = some l → l.type = LineType.dialogue) :
    (((replaceLines id 2 2 txt8 p s).lines.drop 2).take 3).map (fun l => l.type)
        = [LineType.action, LineType.character, LineType.heading]
    ∧ (undoEdit id (replaceLines id 2 2 txt8 p s)).lines = s.lines := by
  have hA : (s.lines.take 2).length = 2 := by rw [List.length_take]; omega
  have hdrop : (replaceLines id 2 2 txt8 p s).lines.drop 2
      = newLineObjects txt8 ++ s.lines.drop (2 + 1) := by
    show ((s.lines.take 2 ++ newLineObjects txt8 ++ s.lines.drop (2 + 1))).drop 2 = _
    rw [List.append_assoc]
    exact List.drop_left' hA
  have hN : (newLineObjects txt8).length = 3 := by decide
  constructor
  · rw [hdrop, List.take_left' hN]
    decide
  · exact undo_after_replace s id txt8 p 2 2 (Nat.le_refl 2) h2

/-- Witness for C8 at the concrete document s8. -/
theorem C8_witness :
    (((replaceLines ("w8") 2 2 txt8 ("p") s8).lines.drop 2).take 3).map (fun l => l.type)
        = [LineType.action, LineType.character, LineType.heading]
    ∧ (undoEdit ("w8") (replaceLines ("w8") 2 2 txt8 ("p") s8)).lines = s8.lines := by
  refine C8_amended_replace_undo s8 ("w8") ("p") (by decide) ?_
  intro l h
  have hv :
      s8.lines[2]? = some { type := LineType.dialogue, content := "hi", original_text := "hi" } := by
    decide
  rw [hv] at h
  rw [← Option.some.inj h]

/-- Claim C9: in every replaceLines call the classifier's rolling
previous type starts as none, independent of the document line preceding
startIndex: the created entry's newLines depend only on the replacement
text, and the first classified segment is never dialogue — it is heading,
parenthetical, character or action. -/
theorem C9_first_segment_never_dialogue (s : ScriptState) (id txt p : String) (st en : Nat) :
    (∃ e, (replaceLines id st en txt p s).editHistory.head? = some e
        ∧ e.newLines = newLineObjects txt)
    ∧ (∀ l, (newLineObjects txt).head? = some l →
        l.type ≠ LineType.dialogue
        ∧ (l.type = LineType.heading ∨ l.type = LineType.parenthetical
            ∨ l.type = LineType.character ∨ l.type = LineType.action)) := by
  constructor
  · exact ⟨mkEditEntry id st en txt p s, rfl, rfl⟩
  · intro l hl
    obtain ⟨c, hcx⟩ := newLineObjects_head_type txt l hl
    have hne := detectType_none_ne_dialogue c
    rw [hcx]
    refine ⟨hne, ?_⟩
    cases hdt : detectType c none <;> simp_all

/-- Witness for C9 at the concrete replacement text hello. -/
theorem C9_witness :
    lW.type ≠ LineType.dialogue
    ∧ (lW.type = LineType.heading ∨ lW.type = LineType.parenthetical
        ∨ lW.type = LineType.character ∨ lW.type = LineType.action) :=
  (C9_first_segment_never_dialogue initialState ("w9") ("hello") ("p") 0 0).2 lW (by decide)

/-- Claim C10: updateLine at an in-range index replaces only the content
field of the line at that index, leaving its type and original text, all
other lines, the history (so the change is not undoable), the selection,
the error state and every other field unchanged, with no reclassification. -/
theorem C10_updateLine_frame (s : ScriptState) (i : Nat) (c : String) (l : ScriptLine)
    (h : s.lines[i]? = some l) :
    (updateLine i c s).lines[i]? = some { l with content := c }
    ∧ (∀ j, j ≠ i → (updateLine i c s).lines[j]? = s.lines[j]?)
    ∧ (updateLine i c s).lines.length = s.lines.length
    ∧ (updateLine i c s).editHistory = s.editHistory
    ∧ (updateLine i c s).selection = s.selection
    ∧ (updateLine i c s).error = s.error
    ∧ (updateLine i c s).characters = s.characters
    ∧ (updateLine i c s).scenes = s.scenes
    ∧ (updateLine i c s).fileFormat = s.fileFormat
    ∧ (updateLine i c s).isLoading = s.isLoading := by
  have hi : i < s.lines.length := by
    by_contra hlt
    rw [List.getElem?_eq_none (by omega)] at h
    cases h
  have hlines : (updateLine i c s).lines = s.lines.set i { l with content := c } := by
    simp [updateLine, h]
  refine ⟨?_, ?_, ?_, rfl, rfl, rfl, rfl, rfl, rfl, rfl⟩
  · rw [hlines]
    exact List.getElem?_set_self hi
  · intro j hj
    rw [hlines]
    exact List.getElem?_set_ne (Ne.symm hj)
  · rw [hlines, List.length_set]

/-- Witness for C10 at a concrete in-range index of s8. -/
theorem C10_witness :
    (updateLine 1 ("X") s8).lines[1]?
      = some { type := LineType.character, content := "X", original_text := "BOB" }
    ∧ (updateLine 1 ("X") s8).editHistory = s8.editHistory := by
  have h := C10_updateLine_frame s8 1 ("X")
    { type := LineType.character, content := "BOB", original_text := "BOB" } (by decide)
  exact ⟨h.1, h.2.2.2.1⟩
